import Mathlib

/-!
# Verification of the `useCleanupCallback` hook

This file is a shallow embedding of the `useCleanupCallback` React hook
(the full variant with `Options`, an `isCalled` consumed flag, and the
object-notation result) together with the host-scheduler semantics it is
built on, and proofs of the behavioural properties claimed of it.

Modelling choices, all taken from the source:

* A release action (a cleanup function) is identified by a `Nat`; invoking
  a function is recorded in an event log rather than executed.  Reference
  identity of JavaScript values is modelled by such identifiers: two values
  are the same reference iff their identifiers are equal.
* The mutable cell `cleanupRef.current : { cleanup, isCalled }` is the
  structure `CleanupObj`; `handleCleanupObj` is the firing primitive, which
  marks `isCalled` before invoking the stored cleanup, exactly as in the
  source.  Whether the cleanup body raises is a parameter `throws`; since
  the flag is set before the call, the slot transition and the execution
  log are independent of `throws`, and only the propagated outcome
  (`fireOutcome`) depends on it.
* The host scheduler is React.  Per its documented semantics, which the
  source relies on: `useCallback fn deps` returns the previously memoized
  closure (capturing the previous render callback) iff the dependency
  lists are pairwise `Object.is`-equal, and a fresh closure otherwise;
  `useEffect eff l` re-runs iff the lists differ pairwise; on a re-render,
  all cleanups of re-running effects run before all set-ups, in
  declaration order; on unmount all cleanups run in declaration order.
  The hook declares three effects in order: the `optionsRef` updater (no
  dependency list), the deps-change teardown with list `[deps]` (a
  one-element list holding the deps array itself, hence compared by the
  array reference), and the unmount teardown with list `[]`.
* The user operation supplied on a render is identified by a `Nat`; its
  behaviour is an environment `env : Nat → Nat → OpResult` giving the
  result of operation `o` when it is run as the machine's `k`-th operation
  call overall.
-/

namespace UCC

/-- The options record, with the defaults from the destructuring
`\x7b cleanUpOnCall = true, cleanUpOnDepsChange = false, cleanUpOnUnmount = true \x7d`. -/
structure Options where
  cleanUpOnCall : Bool
  cleanUpOnDepsChange : Bool
  cleanUpOnUnmount : Bool
deriving DecidableEq, Repr

/-- Default option values of the implementation signature. -/
def defaultOptions : Options :=
  { cleanUpOnCall := true, cleanUpOnDepsChange := false, cleanUpOnUnmount := true }

/-- The mutable cell `cleanupRef.current`: a stored cleanup (`none` models
both `null` and a non-function return such as `undefined`) and the
`isCalled` consumed flag. -/
structure CleanupObj where
  cleanup : Option Nat
  isCalled : Bool
deriving DecidableEq, Repr

/-- The firing primitive `handleCleanupObj`: if the flag is unset and a
function is stored, mark `isCalled := true` and then invoke the cleanup
(recorded in the returned execution log).  Otherwise a silent no-op. -/
def handleCleanupObj (s : CleanupObj) : CleanupObj × List Nat :=
  match s.cleanup with
  | some c => if s.isCalled then (s, []) else (⟨some c, true⟩, [c])
  | none => (s, [])

/-- Whether a call to `handleCleanupObj` propagates an exception, given
which cleanup bodies raise.  The flag is assigned before the body runs, so
this is the only part of firing that depends on `throws`. -/
def fireOutcome (throws : Nat → Bool) (s : CleanupObj) : Bool :=
  match s.cleanup with
  | some c => if s.isCalled then false else throws c
  | none => false

/-- Replacing the stored cleanup: `cleanupRef.current = \x7b cleanup, isCalled: false \x7d`. -/
def setSlot (a : Option Nat) (_s : CleanupObj) : CleanupObj :=
  ⟨a, false⟩

/-- Iterated firing: `n` successive calls to `handleCleanupObj`, with the
concatenated execution log. -/
def fireN (n : Nat) (s : CleanupObj) : CleanupObj × List Nat :=
  match n with
  | 0 => (s, [])
  | n + 1 =>
    let r1 := handleCleanupObj s
    let r2 := fireN n r1.1
    (r2.1, r1.2 ++ r2.2)

/-- The result of one call to the user operation, discriminated the way the
source discriminates it: `empty` is any return value that is neither an
object nor a function (e.g. `undefined`), `release` is a returned function,
`valueWithRelease` is the object notation `\x7b value, cleanup \x7d` (whose
`cleanup` field may itself be void), and `opThrow` means the operation
raised. -/
inductive OpResult where
  | empty : OpResult
  | release : Nat → OpResult
  | valueWithRelease : Nat → Option Nat → OpResult
  | opThrow : OpResult
deriving DecidableEq, Repr

/-- What a normal return of the output callback hands to its caller. -/
inductive RetVal where
  | undef : RetVal
  | value : Nat → RetVal
  | fnValue : Nat → RetVal
deriving DecidableEq, Repr

/-- The outcome of one call of the output callback: a normal return or a
propagated exception. -/
inductive InvokeOutcome where
  | ret : RetVal → InvokeOutcome
  | raised : InvokeOutcome
deriving DecidableEq, Repr

/-- Observable events: a release action body executing, or the user
operation `op` being run as overall operation call number `k`. -/
inductive Ev where
  | fired : Nat → Ev
  | opCalled : Nat → Nat → Ev
deriving DecidableEq, Repr

/-- The state of one mounted hook instance.

`slot` is `cleanupRef.current`; `optionsRef` is `optionsRef.current` (the
options of the last committed render); `depsEffectDeps` is the array
reference stored by the deps-change effect; `cbMemoDeps` and `cbOp` are the
dependency contents and the captured operation of the memoized
`outputCallback`, and `cbId` its reference identity; `tick` counts
operation calls performed so far. -/
structure HookState where
  slot : CleanupObj
  optionsRef : Options
  depsEffectDeps : Nat
  cbMemoDeps : List Nat
  cbOp : Nat
  cbId : Nat
  tick : Nat
deriving DecidableEq, Repr

/-- Initial mount with operation `op`, deps array reference `depsId` with
contents `depsVals`, and options `opts`. -/
def mount (op depsId : Nat) (depsVals : List Nat) (opts : Options) : HookState :=
  { slot := ⟨none, false⟩
    optionsRef := opts
    depsEffectDeps := depsId
    cbMemoDeps := depsVals
    cbOp := op
    cbId := 0
    tick := 0 }

/-- A re-render with fresh inputs.  Render phase: `useCallback` keeps the
memoized closure (old operation, old identity) iff the dependency contents
are pairwise equal.  Commit phase, cleanups first: the deps-change effect
re-runs iff the deps array reference changed, and its cleanup fires the
slot when the (still previous) `optionsRef.current.cleanUpOnDepsChange` is
set; then set-ups: `optionsRef.current` is updated and the new array
reference stored. -/
def rerender (s : HookState) (op depsId : Nat) (depsVals : List Nat) (opts : Options) :
    HookState × List Ev :=
  let cbOp := if depsVals = s.cbMemoDeps then s.cbOp else op
  let cbId := if depsVals = s.cbMemoDeps then s.cbId else s.cbId + 1
  let r1 :=
    if depsId = s.depsEffectDeps then (s.slot, [])
    else if s.optionsRef.cleanUpOnDepsChange then handleCleanupObj s.slot
    else (s.slot, [])
  ({ slot := r1.1
     optionsRef := opts
     depsEffectDeps := depsId
     cbMemoDeps := depsVals
     cbOp := cbOp
     cbId := cbId
     tick := s.tick },
   r1.2.map Ev.fired)

/-- One call of the memoized output callback.  Step 1: if
`optionsRef.current.cleanUpOnCall`, fire the slot.  Step 2: run the
captured operation.  Steps 3 and 4: interpret the result — an object stores
its `cleanup` field and returns its `value`; a function is stored and is
itself the returned value; otherwise the slot is left untouched and the raw
(void) return value passes through.  An operation that raises propagates to
the caller with nothing stored. -/
def invoke (env : Nat → Nat → OpResult) (s : HookState) :
    HookState × List Ev × InvokeOutcome :=
  let r1 := if s.optionsRef.cleanUpOnCall then handleCleanupObj s.slot else (s.slot, [])
  let trace := r1.2.map Ev.fired ++ [Ev.opCalled s.cbOp s.tick]
  match env s.cbOp s.tick with
  | OpResult.opThrow =>
    ({ s with slot := r1.1, tick := s.tick + 1 }, trace, InvokeOutcome.raised)
  | OpResult.empty =>
    ({ s with slot := r1.1, tick := s.tick + 1 }, trace, InvokeOutcome.ret RetVal.undef)
  | OpResult.release a =>
    ({ s with slot := ⟨some a, false⟩, tick := s.tick + 1 }, trace,
      InvokeOutcome.ret (RetVal.fnValue a))
  | OpResult.valueWithRelease v c =>
    ({ s with slot := ⟨c, false⟩, tick := s.tick + 1 }, trace,
      InvokeOutcome.ret (RetVal.value v))

/-- Unmount: all effect cleanups run in declaration order — the deps-change
teardown (gated by the live `cleanUpOnDepsChange`) and then the unmount
teardown (gated by the live `cleanUpOnUnmount`), both through the same
firing primitive on the same slot. -/
def unmount (s : HookState) : HookState × List Ev :=
  let r1 := if s.optionsRef.cleanUpOnDepsChange then handleCleanupObj s.slot else (s.slot, [])
  let r2 := if s.optionsRef.cleanUpOnUnmount then handleCleanupObj r1.1 else (r1.1, [])
  ({ s with slot := r2.1 }, (r1.2 ++ r2.2).map Ev.fired)

/-- `n` successive calls of the output callback, with the concatenated
event trace. -/
def invokeN (env : Nat → Nat → OpResult) (n : Nat) (s : HookState) :
    HookState × List Ev :=
  match n with
  | 0 => (s, [])
  | n + 1 =>
    let r1 := invokeN env n s
    let r2 := invoke env r1.1
    (r2.1, r1.2 ++ r2.2.1)

/-- The full observable trace of spec scenario 1: all options default, the
operation returns a fresh release action `c k` on its `k`-th call, the
output callback is called three times, and the hook is then unmounted. -/
def scenarioDefaults (c : Nat → Nat) : List Ev :=
  let r := invokeN (fun _ k => OpResult.release (c k)) 3 (mount 0 0 [] defaultOptions)
  r.2 ++ (unmount r.1).2

/-- Firing a slot whose stored action is already consumed is a no-op, no
matter how many times it is repeated. -/
lemma fireN_consumed (n : Nat) (a : Nat) :
    fireN n ⟨some a, true⟩ = (⟨some a, true⟩, []) := by
  induction n with
  | zero => rfl
  | succ m ih => simp [fireN, handleCleanupObj, ih]

/-- C1: after any single slot replacement storing an action, across any
number of subsequent firings the stored action body executes at most once;
one firing consumes it; the firing outcome of a freshly stored action is
exactly whether that action raises, a failed action is still marked
consumed, and once consumed no later firing executes or raises anything.
Moreover a duplicate disposal teardown (`unmount` runs both teardown hooks
on the same slot) executes at most one action body in total. -/
theorem c1_at_most_once (s : CleanupObj) (a n : Nat) (throws : Nat → Bool) :
    (fireN n (setSlot (some a) s)).2.length ≤ 1
    ∧ (1 ≤ n → (fireN n (setSlot (some a) s)).1 = ⟨some a, true⟩)
    ∧ fireOutcome throws (setSlot (some a) s) = throws a
    ∧ (1 ≤ n → fireOutcome throws (fireN n (setSlot (some a) s)).1 = false)
    ∧ ∀ s2 : HookState, ((unmount s2).2).length ≤ 1 := by
  have hfire : ∀ m, fireN m (setSlot (some a) s)
      = (if m = 0 then (⟨some a, false⟩, []) else (⟨some a, true⟩, [a])) := by
    intro m
    cases m with
    | zero => rfl
    | succ k => simp [fireN, setSlot, handleCleanupObj, fireN_consumed]
  refine ⟨?_, ?_, ?_, ?_, ?_⟩
  · rw [hfire]
    by_cases h : n = 0 <;> simp [h]
  · intro hn
    rw [hfire]
    simp [Nat.pos_iff_ne_zero.mp hn]
  · rfl
  · intro hn
    rw [hfire]
    simp [Nat.pos_iff_ne_zero.mp hn, fireOutcome]
  · intro s2
    rcases s2 with ⟨⟨c, ic⟩, ⟨oc, od, ou⟩, d, md, co, ci, t⟩
    cases c <;> cases ic <;> cases od <;> cases ou <;>
      simp [unmount, handleCleanupObj]

/-- Witness for `c1_at_most_once` at a concrete slot, action, firing count
and a throwing action body. -/
theorem c1_at_most_once_witness :
    (fireN 2 (setSlot (some 5) ⟨none, false⟩)).2.length ≤ 1
    ∧ (fireN 2 (setSlot (some 5) ⟨none, false⟩)).1 = ⟨some 5, true⟩
    ∧ fireOutcome (fun _ => true) (setSlot (some 5) ⟨none, false⟩) = true
    ∧ fireOutcome (fun _ => true) (fireN 2 (setSlot (some 5) ⟨none, false⟩)).1 = false := by
  have h := c1_at_most_once ⟨none, false⟩ 5 2 (fun _ => true)
  exact ⟨h.1, h.2.1 (by decide), h.2.2.1, h.2.2.2.1 (by decide)⟩

/-- C2: with all options default and an operation returning a fresh release
action on each call, three calls of the output callback followed by
disposal produce exactly the trace in which the first stored action fires
at the start of the second call, the second at the start of the third call,
and the third at disposal — each exactly once, and each firing of a
previous action strictly before the next operation call. -/
theorem c2_default_firing_order (c : Nat → Nat) (hinj : Function.Injective c) :
    scenarioDefaults c
      = [Ev.opCalled 0 0, Ev.fired (c 0), Ev.opCalled 0 1, Ev.fired (c 1),
         Ev.opCalled 0 2, Ev.fired (c 2)]
    ∧ (scenarioDefaults c).count (Ev.fired (c 0)) = 1
    ∧ (scenarioDefaults c).count (Ev.fired (c 1)) = 1
    ∧ (scenarioDefaults c).count (Ev.fired (c 2)) = 1 := by
  have htr : scenarioDefaults c
      = [Ev.opCalled 0 0, Ev.fired (c 0), Ev.opCalled 0 1, Ev.fired (c 1),
         Ev.opCalled 0 2, Ev.fired (c 2)] := rfl
  have h01 : c 0 ≠ c 1 := hinj.ne (by decide)
  have h02 : c 0 ≠ c 2 := hinj.ne (by decide)
  have h10 : c 1 ≠ c 0 := hinj.ne (by decide)
  have h12 : c 1 ≠ c 2 := hinj.ne (by decide)
  have h20 : c 2 ≠ c 0 := hinj.ne (by decide)
  have h21 : c 2 ≠ c 1 := hinj.ne (by decide)
  refine ⟨htr, ?_, ?_, ?_⟩ <;>
    simp [htr, List.count_cons, h01, h02, h10, h12, h20, h21]

/-- Witness for `c2_default_firing_order` with the identity action
numbering. -/
theorem c2_default_firing_order_witness :
    scenarioDefaults (fun k => k)
      = [Ev.opCalled 0 0, Ev.fired 0, Ev.opCalled 0 1, Ev.fired 1,
         Ev.opCalled 0 2, Ev.fired 2]
    ∧ (scenarioDefaults (fun k => k)).count (Ev.fired 0) = 1
    ∧ (scenarioDefaults (fun k => k)).count (Ev.fired 1) = 1
    ∧ (scenarioDefaults (fun k => k)).count (Ev.fired 2) = 1 :=
  c2_default_firing_order (fun k => k) (fun _ _ h => h)

/-- C3, evaluation at the failing input: with `cleanUpOnDepsChange = true`,
arm the slot by one call, then re-render supplying a deps array with equal
contents (`[7]` both times) but a fresh reference (`depsId` 0 then 1).  The
memoization primitive treats the key as unchanged — the output callback
keeps identity `0` and the original operation — yet the deps-change
teardown, whose dependency list holds the deps array itself and is compared
by reference, re-runs and fires the pending action.  The claim says an
equal DependencyKey must never fire it. -/
theorem c3_code_eval :
    (rerender (invoke (fun _ _ => OpResult.release 0)
        (mount 0 0 [7] ⟨true, true, true⟩)).1 0 1 [7] ⟨true, true, true⟩).1.cbId
      = (invoke (fun _ _ => OpResult.release 0)
          (mount 0 0 [7] ⟨true, true, true⟩)).1.cbId
    ∧ (rerender (invoke (fun _ _ => OpResult.release 0)
        (mount 0 0 [7] ⟨true, true, true⟩)).1 0 1 [7] ⟨true, true, true⟩).1.cbOp
      = (invoke (fun _ _ => OpResult.release 0)
          (mount 0 0 [7] ⟨true, true, true⟩)).1.cbOp
    ∧ (rerender (invoke (fun _ _ => OpResult.release 0)
        (mount 0 0 [7] ⟨true, true, true⟩)).1 0 1 [7] ⟨true, true, true⟩).2
      = [Ev.fired 0] := by
  decide

/-- C4, counterexample: with `cleanUpOnCall = false`, a first call arms
action `0` and a second call whose result is the Empty variant leaves the
slot holding action `0`, still unconsumed — the slot is not set to Empty —
and the subsequent disposal fires that pre-existing action.  This refutes
the claim that after an Empty-result call the slot holds no pending action
and no later trigger can fire an action stored before that call. -/
theorem c4_counterexample :
    (invokeN (fun _ k => if k = 0 then OpResult.release 0 else OpResult.empty) 2
        (mount 0 0 [] ⟨false, false, true⟩)).1.slot = ⟨some 0, false⟩
    ∧ (unmount (invokeN (fun _ k => if k = 0 then OpResult.release 0 else OpResult.empty) 2
        (mount 0 0 [] ⟨false, false, true⟩)).1).2 = [Ev.fired 0] := by
  decide

/-- C4 as amended: a call whose operation result is the Empty variant does
not replace the slot at all — the slot is left exactly as the step-1 firing
left it (previous action consumed when `cleanUpOnCall` is set, untouched
otherwise) — and the call returns the void value. -/
theorem c4_empty_leaves_slot (env : Nat → Nat → OpResult) (s : HookState)
    (h : env s.cbOp s.tick = OpResult.empty) :
    (invoke env s).1.slot
      = (if s.optionsRef.cleanUpOnCall then handleCleanupObj s.slot else (s.slot, [])).1
    ∧ (s.optionsRef.cleanUpOnCall = false → (invoke env s).1.slot = s.slot)
    ∧ (invoke env s).2.2 = InvokeOutcome.ret RetVal.undef := by
  refine ⟨?_, ?_, ?_⟩
  · simp [invoke, h]
  · intro hopt
    simp [invoke, h, hopt]
  · simp [invoke, h]

/-- Witness for `c4_empty_leaves_slot` at a concrete state whose slot holds
an unconsumed action and whose options disable clean-up on call. -/
theorem c4_empty_leaves_slot_witness :
    (invoke (fun _ _ => OpResult.empty)
        { mount 0 0 [] ⟨false, false, true⟩ with slot := ⟨some 3, false⟩ }).1.slot
      = ⟨some 3, false⟩
    ∧ (invoke (fun _ _ => OpResult.empty)
        { mount 0 0 [] ⟨false, false, true⟩ with slot := ⟨some 3, false⟩ }).2.2
      = InvokeOutcome.ret RetVal.undef := by
  have h := c4_empty_leaves_slot (fun _ _ => OpResult.empty)
    { mount 0 0 [] ⟨false, false, true⟩ with slot := ⟨some 3, false⟩ } rfl
  exact ⟨h.2.1 rfl, h.2.2⟩

/-- Whatever the operation result, a call of the output callback records
exactly one operation-call event, naming the captured operation and the
current call counter. -/
lemma invoke_opCalled_mem (env : Nat → Nat → OpResult) (s : HookState) :
    Ev.opCalled s.cbOp s.tick ∈ (invoke env s).2.1 := by
  rcases henv : env s.cbOp s.tick <;>
    simp [invoke, henv]

/-- C5: a re-render whose dependency contents equal the stored ones keeps
the output callback reference (same identity) and its captured operation,
even though a fresh operation is supplied — so a subsequent call still runs
the previous operation reference; a re-render whose dependency contents
differ yields a new output callback reference. -/
theorem c5_referential_stability (s : HookState) (env : Nat → Nat → OpResult)
    (op op2 depsId depsId2 : Nat) (depsVals depsVals2 : List Nat)
    (opts opts2 : Options) :
    (depsVals = s.cbMemoDeps →
      (rerender s op depsId depsVals opts).1.cbId = s.cbId
      ∧ (rerender s op depsId depsVals opts).1.cbOp = s.cbOp
      ∧ Ev.opCalled s.cbOp (rerender s op depsId depsVals opts).1.tick
          ∈ (invoke env (rerender s op depsId depsVals opts).1).2.1)
    ∧ (depsVals2 ≠ s.cbMemoDeps →
      (rerender s op2 depsId2 depsVals2 opts2).1.cbId ≠ s.cbId) := by
  constructor
  · intro h
    have hop : (rerender s op depsId depsVals opts).1.cbOp = s.cbOp := by
      simp [rerender, h]
    have hid : (rerender s op depsId depsVals opts).1.cbId = s.cbId := by
      simp [rerender, h]
    refine ⟨hid, hop, ?_⟩
    have hmem := invoke_opCalled_mem env (rerender s op depsId depsVals opts).1
    rwa [hop] at hmem
  · intro h
    simp only [rerender, if_neg h]
    omega

/-- Witness for `c5_referential_stability`: re-rendering with equal
dependency contents `[5]` but a fresh operation keeps identity and the old
operation; contents `[6]` give a new identity. -/
theorem c5_referential_stability_witness :
    ((rerender (mount 0 9 [5] defaultOptions) 1 8 [5] defaultOptions).1.cbId
        = (mount 0 9 [5] defaultOptions).cbId
      ∧ (rerender (mount 0 9 [5] defaultOptions) 1 8 [5] defaultOptions).1.cbOp
        = (mount 0 9 [5] defaultOptions).cbOp
      ∧ Ev.opCalled (mount 0 9 [5] defaultOptions).cbOp
          (rerender (mount 0 9 [5] defaultOptions) 1 8 [5] defaultOptions).1.tick
          ∈ (invoke (fun _ _ => OpResult.empty)
              (rerender (mount 0 9 [5] defaultOptions) 1 8 [5] defaultOptions).1).2.1)
    ∧ (rerender (mount 0 9 [5] defaultOptions) 2 8 [6] defaultOptions).1.cbId
        ≠ (mount 0 9 [5] defaultOptions).cbId := by
  have h := c5_referential_stability (mount 0 9 [5] defaultOptions)
    (fun _ _ => OpResult.empty) 1 2 8 8 [5] [6] defaultOptions defaultOptions
  exact ⟨h.1 rfl, h.2 (by decide)⟩

/-- With `cleanUpOnCall = false` and an operation returning a fresh release
action each call, `n` calls of the output callback record exactly the `n`
operation calls, never firing, and the slot ends holding the action of the
last call, unconsumed. -/
lemma invokeN_noCleanUpOnCall (acts : Nat → Nat) (n : Nat) :
    invokeN (fun _ k => OpResult.release (acts k)) n
        (mount 0 0 [] ⟨false, false, true⟩)
      = ({ slot := if n = 0 then ⟨none, false⟩ else ⟨some (acts (n - 1)), false⟩
           optionsRef := ⟨false, false, true⟩
           depsEffectDeps := 0
           cbMemoDeps := []
           cbOp := 0
           cbId := 0
           tick := n },
         (List.range n).map (Ev.opCalled 0)) := by
  induction n with
  | zero => rfl
  | succ m ih =>
    rw [invokeN, ih]
    simp [invoke, List.range_succ]

/-- C6: with `cleanUpOnCall = false` and `cleanUpOnDepsChange = false`,
across any number of calls each arming a distinct release action, no action
fires before disposal; disposal with `cleanUpOnUnmount = true` fires
exactly the last stored action; and every earlier action fires nowhere in
the whole trace. -/
theorem c6_trigger_independence (acts : Nat → Nat) (n : Nat)
    (hinj : Function.Injective acts) :
    (∀ e ∈ (invokeN (fun _ k => OpResult.release (acts k)) n
        (mount 0 0 [] ⟨false, false, true⟩)).2, ∀ a, e ≠ Ev.fired a)
    ∧ (0 < n →
      (unmount (invokeN (fun _ k => OpResult.release (acts k)) n
          (mount 0 0 [] ⟨false, false, true⟩)).1).2 = [Ev.fired (acts (n - 1))])
    ∧ (∀ k, k + 1 < n →
      Ev.fired (acts k) ∉
        (invokeN (fun _ k => OpResult.release (acts k)) n
            (mount 0 0 [] ⟨false, false, true⟩)).2
          ++ (unmount (invokeN (fun _ k => OpResult.release (acts k)) n
              (mount 0 0 [] ⟨false, false, true⟩)).1).2) := by
  rw [invokeN_noCleanUpOnCall]
  refine ⟨?_, ?_, ?_⟩
  · intro e he a
    simp only [List.mem_map, List.mem_range] at he
    obtain ⟨k, -, rfl⟩ := he
    simp
  · intro hn
    have hz : ¬ n = 0 := Nat.pos_iff_ne_zero.mp hn
    simp [unmount, handleCleanupObj, hz]
  · intro k hk
    have hz : ¬ n = 0 := by omega
    have hne : acts k ≠ acts (n - 1) := hinj.ne (by omega)
    simp [unmount, handleCleanupObj, hz, hne]

/-- Witness for `c6_trigger_independence` with three calls and the identity
action numbering: only action `2` fires, at disposal, and action `0` never
fires. -/
theorem c6_trigger_independence_witness :
    (unmount (invokeN (fun _ k => OpResult.release k) 3
        (mount 0 0 [] ⟨false, false, true⟩)).1).2 = [Ev.fired 2]
    ∧ Ev.fired 0 ∉
        (invokeN (fun _ k => OpResult.release k) 3
            (mount 0 0 [] ⟨false, false, true⟩)).2
          ++ (unmount (invokeN (fun _ k => OpResult.release k) 3
              (mount 0 0 [] ⟨false, false, true⟩)).1).2 := by
  have h := c6_trigger_independence (fun k => k) 3 (fun _ _ hh => hh)
  exact ⟨h.2.1 (by decide), h.2.2 0 (by decide)⟩

/-- C7: whenever the operation result is `valueWithRelease value action`,
the call that produced it returns exactly that value, from any slot state
whatsoever; and in the two-call scenario with constant object-notation
results and default options, both calls return the value, the first firing
nothing and the second firing the first call's action exactly once, before
the second operation call. -/
theorem c7_value_pass_through (env : Nat → Nat → OpResult) (s : HookState)
    (v : Nat) (c : Option Nat) (a : Nat)
    (h : env s.cbOp s.tick = OpResult.valueWithRelease v c) :
    (invoke env s).2.2 = InvokeOutcome.ret (RetVal.value v)
    ∧ (invoke (fun _ _ => OpResult.valueWithRelease v (some a))
        (mount 0 0 [] defaultOptions)).2
      = ([Ev.opCalled 0 0], InvokeOutcome.ret (RetVal.value v))
    ∧ (invoke (fun _ _ => OpResult.valueWithRelease v (some a))
        (invoke (fun _ _ => OpResult.valueWithRelease v (some a))
          (mount 0 0 [] defaultOptions)).1).2
      = ([Ev.fired a, Ev.opCalled 0 1], InvokeOutcome.ret (RetVal.value v)) := by
  refine ⟨?_, rfl, rfl⟩
  simp [invoke, h]

/-- Witness for `c7_value_pass_through` at a concrete environment and
state. -/
theorem c7_value_pass_through_witness :
    (invoke (fun _ _ => OpResult.valueWithRelease 7 none)
        (mount 0 0 [] defaultOptions)).2.2 = InvokeOutcome.ret (RetVal.value 7)
    ∧ (invoke (fun _ _ => OpResult.valueWithRelease 7 (some 3))
        (mount 0 0 [] defaultOptions)).2
      = ([Ev.opCalled 0 0], InvokeOutcome.ret (RetVal.value 7))
    ∧ (invoke (fun _ _ => OpResult.valueWithRelease 7 (some 3))
        (invoke (fun _ _ => OpResult.valueWithRelease 7 (some 3))
          (mount 0 0 [] defaultOptions)).1).2
      = ([Ev.fired 3, Ev.opCalled 0 1], InvokeOutcome.ret (RetVal.value 7)) :=
  c7_value_pass_through (fun _ _ => OpResult.valueWithRelease 7 none)
    (mount 0 0 [] defaultOptions) 7 none 3 rfl

/-- C8: when the operation raises during a call, the failure propagates to
the caller of the output callback, the slot is left exactly as the step-1
firing left it — nothing new is stored — so with `cleanUpOnCall` unset the
slot is untouched, and with it set a previously armed action is left
consumed. -/
theorem c8_operation_failure (env : Nat → Nat → OpResult) (s : HookState)
    (a : Nat) (h : env s.cbOp s.tick = OpResult.opThrow) :
    (invoke env s).2.2 = InvokeOutcome.raised
    ∧ (invoke env s).1.slot
      = (if s.optionsRef.cleanUpOnCall then handleCleanupObj s.slot else (s.slot, [])).1
    ∧ (s.optionsRef.cleanUpOnCall = false → (invoke env s).1.slot = s.slot)
    ∧ (s.optionsRef.cleanUpOnCall = true → s.slot = ⟨some a, false⟩ →
        (invoke env s).1.slot = ⟨some a, true⟩) := by
  refine ⟨?_, ?_, ?_, ?_⟩
  · simp [invoke, h]
  · simp [invoke, h]
  · intro hopt
    simp [invoke, h, hopt]
  · intro hopt hslot
    simp [invoke, h, hopt, hslot, handleCleanupObj]

/-- Witness for `c8_operation_failure` at a concrete state with an armed
action and clean-up on call enabled. -/
theorem c8_operation_failure_witness :
    (invoke (fun _ _ => OpResult.opThrow)
        { mount 0 0 [] defaultOptions with slot := ⟨some 4, false⟩ }).2.2
      = InvokeOutcome.raised
    ∧ (invoke (fun _ _ => OpResult.opThrow)
        { mount 0 0 [] defaultOptions with slot := ⟨some 4, false⟩ }).1.slot
      = ⟨some 4, true⟩ := by
  have h := c8_operation_failure (fun _ _ => OpResult.opThrow)
    { mount 0 0 [] defaultOptions with slot := ⟨some 4, false⟩ } 4 rfl
  exact ⟨h.1, h.2.2.2 rfl rfl⟩

/-- C9: when the operation result is the bare release variant, the slot is
armed with that action, and the value handed to the caller is the action
itself — never a proper payload value. -/
theorem c9_release_variant (env : Nat → Nat → OpResult) (s : HookState)
    (a : Nat) (h : env s.cbOp s.tick = OpResult.release a) :
    (invoke env s).1.slot = ⟨some a, false⟩
    ∧ (invoke env s).2.2 = InvokeOutcome.ret (RetVal.fnValue a)
    ∧ ∀ v, (invoke env s).2.2 ≠ InvokeOutcome.ret (RetVal.value v) := by
  refine ⟨?_, ?_, ?_⟩
  · simp [invoke, h]
  · simp [invoke, h]
  · intro v
    simp [invoke, h]

/-- Witness for `c9_release_variant` at a concrete environment and
state. -/
theorem c9_release_variant_witness :
    (invoke (fun _ _ => OpResult.release 6)
        (mount 0 0 [] defaultOptions)).1.slot = ⟨some 6, false⟩
    ∧ (invoke (fun _ _ => OpResult.release 6)
        (mount 0 0 [] defaultOptions)).2.2
      = InvokeOutcome.ret (RetVal.fnValue 6)
    ∧ (invoke (fun _ _ => OpResult.release 6)
        (mount 0 0 [] defaultOptions)).2.2
      ≠ InvokeOutcome.ret (RetVal.value 6) := by
  have h := c9_release_variant (fun _ _ => OpResult.release 6)
    (mount 0 0 [] defaultOptions) 6 rfl
  exact ⟨h.1, h.2.1, h.2.2 6⟩

end UCC
